import Mathlib

/-!
Verification of the banking-transactions data engine.

Shallow embedding conventions:
* Python floats are modelled as exact rationals (`ℚ`); all amounts, balances
  and scores in the verified claims are decimal literals whose arithmetic is
  exact in both models.
* Python ints are `Int` (steps) or `Nat` (indices, counts).
* A pandas `DataFrame` of transactions is a `List Row` in original row order.
* `round(x, 2)` is modelled by `round2` (round to nearest, 2 decimal places);
  the verified statements never involve exact half-way ties, where Python's
  bankers rounding could differ.
* Functions of the repository keep their Python names.  Definitions whose
  source file is not available are marked `Modelled from the spec:` in their
  doc comment.
-/

namespace Banking

/-- One row of the transactions table (columns of the source data plus the
synthetic `id` assigned by the loader). -/
structure Row where
  id : String
  step : Int
  type : String
  amount : ℚ
  nameOrig : String
  oldbalanceOrg : ℚ
  newbalanceOrig : ℚ
  nameDest : String
  oldbalanceDest : ℚ
  newbalanceDest : ℚ
  isFraud : Int
  isFlaggedFraud : Int
deriving DecidableEq

/-- Model of Python `round(x, 2)`: round to the nearest multiple of 1/100. -/
def round2 (x : ℚ) : ℚ := (round (100 * x) : ℤ) / 100

/-! ### Fraud heuristic engine (`services/fraud_detection_service.py`) -/

def RISKY_TYPES : List String := ["CASH_OUT", "TRANSFER"]

def HIGH_AMOUNT_THRESHOLD : ℚ := 100000

def BALANCE_TOLERANCE : ℚ := 0.01

def RAPID_TRANSACTION_STEP_GAP : Int := 1

structure FraudPredictionResponse where
  isFraud : Bool
  probability : ℚ
deriving DecidableEq

/-- Rule 1's condition (balance inconsistency): the expected balance
`old_balance_org - amount` differs from the reported new balance by more
than the tolerance. -/
def balanceRule (amount old_balance_org new_balance_orig : ℚ) : Bool :=
  |old_balance_org - amount - new_balance_orig| > BALANCE_TOLERANCE

/-- Rule 2's condition: risky transaction type. -/
def riskyRule (type_ : String) : Bool := type_ ∈ RISKY_TYPES

/-- Rule 3's condition: high amount. -/
def highRule (amount : ℚ) : Bool := amount > HIGH_AMOUNT_THRESHOLD

/-- Rule 4's condition as the source has it: the guard
`if name_orig and step is not None` (truthiness of `name_orig`, so the rule
is skipped for the empty string), then a scan of the customer's timeline
for an entry at a different step within the gap window. -/
def rapidRule (timeline : String → List (Int × Nat))
    (name_orig : Option String) (step : Option Int) : Bool :=
  match name_orig, step with
  | some c, some st =>
      (c != "") && (timeline c).any
        (fun p => (p.1 != st) && (|p.1 - st| ≤ RAPID_TRANSACTION_STEP_GAP))
  | _, _ => false

/-- `predict_fraud` from `services/fraud_detection_service.py`.  The data
access layer is abstracted by the `timeline` argument: `timeline c` is what
`dal.get_customer_timeline(c)` returns.  The four `score += ...` updates are
the four rule indicators added up. -/
def predict_fraud (timeline : String → List (Int × Nat))
    (type_ : String) (amount old_balance_org new_balance_orig : ℚ)
    (name_orig : Option String) (step : Option Int) : FraudPredictionResponse :=
  let score1 : ℚ := if balanceRule amount old_balance_org new_balance_orig then 0.3 else 0
  let score2 : ℚ := if riskyRule type_ then 0.3 else 0
  let score3 : ℚ := if highRule amount then 0.4 else 0
  let score4 : ℚ := if rapidRule timeline name_orig step then 0.3 else 0
  let score := score1 + score2 + score3 + score4
  let probability := min score 1
  { isFraud := decide (probability > 0.5), probability := round2 probability }

/-- Score of `predict_fraud` as a function of which of the four rules fired. -/
def fraudScore (b1 b2 b3 b4 : Bool) : ℚ :=
  (cond b1 0.3 0) + (cond b2 0.3 0) + (cond b3 0.4 0) + (cond b4 0.3 0)

/-- Number of scoring rules that fired. -/
def firedRules (b1 b2 b3 b4 : Bool) : Nat :=
  (cond b1 1 0) + (cond b2 1 0) + (cond b3 1 0) + (cond b4 1 0)

/-- Probability formula from the claim's wording (C1 as written): the rapid
rule is consulted whenever both `originCustomer` and `step` are supplied,
with the entry condition `1 ≤ |existingStep - step| ≤ 1` and
`existingStep ≠ step`. -/
def claimProbabilityC1 (timeline : String → List (Int × Nat))
    (type_ : String) (amount old_balance_org new_balance_orig : ℚ)
    (name_orig : Option String) (step : Option Int) : ℚ :=
  let s1 : ℚ := if |old_balance_org - amount - new_balance_orig| > 0.01 then 0.3 else 0
  let s2 : ℚ := if type_ = "CASH_OUT" ∨ type_ = "TRANSFER" then 0.3 else 0
  let s3 : ℚ := if amount > 100000 then 0.4 else 0
  let s4 : ℚ :=
    match name_orig, step with
    | some c, some st =>
        if ∃ p ∈ timeline c, 1 ≤ |p.1 - st| ∧ |p.1 - st| ≤ 1 ∧ p.1 ≠ st then 0.3 else 0
    | _, _ => 0
  min (s1 + s2 + s3 + s4) 1

/-- Probability formula of the amended claim: like `claimProbabilityC1`, but
the rapid rule additionally requires the supplied `originCustomer` to be
non-empty (matching the code's truthiness test). -/
def claimProbabilityC1Amended (timeline : String → List (Int × Nat))
    (type_ : String) (amount old_balance_org new_balance_orig : ℚ)
    (name_orig : Option String) (step : Option Int) : ℚ :=
  let s1 : ℚ := if |old_balance_org - amount - new_balance_orig| > 0.01 then 0.3 else 0
  let s2 : ℚ := if type_ = "CASH_OUT" ∨ type_ = "TRANSFER" then 0.3 else 0
  let s3 : ℚ := if amount > 100000 then 0.4 else 0
  let s4 : ℚ :=
    match name_orig, step with
    | some c, some st =>
        if c ≠ "" ∧ ∃ p ∈ timeline c, 1 ≤ |p.1 - st| ∧ |p.1 - st| ≤ 1 ∧ p.1 ≠ st then 0.3
        else 0
    | _, _ => 0
  min (s1 + s2 + s3 + s4) 1

/-- Concrete timeline used to separate `predict_fraud` from the claim's
formula: every customer id (including `""`) has one transaction at step 1. -/
def timelineCex : String → List (Int × Nat) := fun _ => [(1, 0)]

/-! ### Amount histogram (`services/stats_service.py`, `compute_all_stats`)

The source calls `pd.cut(df["amount"], bins=[0,100,...,100000,inf],
labels=...)` with pandas' defaults (`right=True`, `include_lowest=False`):
a value `x` is assigned to bin `i` exactly when `edges[i] < x ≤ edges[i+1]`,
so the bins are left-open right-closed and a value equal to the lowest edge
0 falls in no bin. -/

def bin_labels : List String :=
  ["0-100", "100-500", "500-1k", "1k-5k", "5k-10k", "10k-50k", "50k-100k", "100k+"]

/-- Bin assignment of `pd.cut` for the fixed edges
`[0, 100, 500, 1000, 5000, 10000, 50000, 100000, ∞)`. -/
def binIndex (x : ℚ) : Option Nat :=
  if 0 < x ∧ x ≤ 100 then some 0
  else if 100 < x ∧ x ≤ 500 then some 1
  else if 500 < x ∧ x ≤ 1000 then some 2
  else if 1000 < x ∧ x ≤ 5000 then some 3
  else if 5000 < x ∧ x ≤ 10000 then some 4
  else if 10000 < x ∧ x ≤ 50000 then some 5
  else if 50000 < x ∧ x ≤ 100000 then some 6
  else if 100000 < x then some 7
  else none

/-- Histogram counts of `compute_all_stats`: for each of the 8 labels, the
number of amounts assigned to that bin. -/
def amount_distribution (amounts : List ℚ) : List Nat :=
  (List.range 8).map (fun i => amounts.countP (fun x => binIndex x == some i))

/-! ### Fraud summary (`services/fraud_detection_service.py`,
`compute_fraud_stats`; the `fraud_by_type` part is not needed by the claims
and is omitted) -/

structure FraudSummary where
  total_frauds : Int
  flagged : Int
  precision : ℚ
  recall_ : ℚ
deriving DecidableEq

/-- `compute_fraud_stats` (fraud-summary part): `total_frauds` and `flagged`
are column sums, `flagged_and_fraud` counts rows where both flags equal 1,
precision and recall are the usual ratios guarded by positivity and rounded
to 2 decimals. -/
def compute_fraud_stats (df : List Row) : FraudSummary :=
  let total_frauds : Int := (df.map (·.isFraud)).sum
  let flagged : Int := (df.map (·.isFlaggedFraud)).sum
  let flagged_and_fraud : Int :=
    ((df.filter (fun r => r.isFraud == 1 && r.isFlaggedFraud == 1)).length : Int)
  let precision : ℚ := if flagged > 0 then (flagged_and_fraud : ℚ) / (flagged : ℚ) else 0
  let recallV : ℚ := if total_frauds > 0 then (flagged_and_fraud : ℚ) / (total_frauds : ℚ) else 0
  { total_frauds := total_frauds
    flagged := flagged
    precision := round2 precision
    recall_ := round2 recallV }

/-- The 5-row dataset of the spec's worked example
(`isFraud = [1,1,0,0,1]`, `isFlaggedFraud = [1,0,1,0,1]`); the remaining
fields are as in the repository's precision/recall test. -/
def exampleDf : List Row :=
  [⟨"tx_0000000", 1, "TRANSFER", 1000, "C1", 0, 0, "M1", 0, 0, 1, 1⟩,
   ⟨"tx_0000001", 1, "TRANSFER", 1000, "C2", 0, 0, "M1", 0, 0, 1, 0⟩,
   ⟨"tx_0000002", 1, "TRANSFER", 1000, "C3", 0, 0, "M1", 0, 0, 0, 1⟩,
   ⟨"tx_0000003", 1, "TRANSFER", 1000, "C4", 0, 0, "M1", 0, 0, 0, 0⟩,
   ⟨"tx_0000004", 1, "TRANSFER", 1000, "C5", 0, 0, "M1", 0, 0, 1, 1⟩]

/-! ### Customer service (`services/customer_service.py`)

The data access layer (`banking_api/data/dataframe_dal.py`) is not part of
the available sources, so the values it returns are abstracted as inputs of
the service functions. -/

/-- Shape of the dictionary returned by `dal.get_customer_stats`. -/
structure CustomerStatsRaw where
  id : String
  transactions_count : Nat
  avg_amount : ℚ
  fraudulent : Bool
deriving DecidableEq

/-- Customer profile returned by the service. -/
structure Customer where
  id : String
  transactions_count : Nat
  avg_amount : ℚ
  fraudulent : Bool
deriving DecidableEq

/-- `get_customer_by_id`: `none` models the `CustomerNotFoundError` raised
when the DAL returns `None`; otherwise `avg_amount` is rounded to 2 decimal
places before being returned. -/
def get_customer_by_id (dalStats : Option CustomerStatsRaw) : Option Customer :=
  match dalStats with
  | none => none
  | some s =>
      some { id := s.id
             transactions_count := s.transactions_count
             avg_amount := round2 s.avg_amount
             fraudulent := s.fraudulent }

/-- Shape of one entry returned by `dal.get_top_customers`. -/
structure TopCustomerRaw where
  id : String
  transactions_count : Nat
  total_amount : ℚ
  avg_amount : ℚ
deriving DecidableEq

/-- Top-customer entry returned by the service. -/
structure TopCustomer where
  id : String
  transactions_count : Nat
  total_amount : ℚ
  avg_amount : ℚ
deriving DecidableEq

/-- `get_top_customers`: each entry's `total_amount` and `avg_amount` are
rounded to 2 decimal places before being returned. -/
def get_top_customers (dalTop : List TopCustomerRaw) : List TopCustomer :=
  dalTop.map (fun c =>
    { id := c.id
      transactions_count := c.transactions_count
      total_amount := round2 c.total_amount
      avg_amount := round2 c.avg_amount })

/-! ### Store and deletion (`services/transactions_service.py`)

Modelled from the spec: the store of `banking_api/data/dataframe_dal.py`
(not among the available sources) owns a primary-key map `id -> row` and an
order-preserving row sequence; `get_transaction_by_id` is the point lookup
and `delete_transaction` removes the row from both structures. -/

structure Store where
  byId : List (String × Row)
  seq : List Row
deriving DecidableEq

/-- Modelled from the spec: `DataFrameDAL.get_transaction_by_id` returns the
row of the primary-key index, or `None` when the id is unknown. -/
def dal_get_transaction_by_id (st : Store) (tid : String) : Option Row :=
  (st.byId.find? (fun p => p.1 == tid)).map (·.2)

/-- Modelled from the spec: `DataFrameDAL.delete_transaction` removes the row
from both the primary-key index and the order-preserving sequence. -/
def dal_delete_transaction (st : Store) (tid : String) : Store :=
  { byId := st.byId.filter (fun p => p.1 != tid)
    seq := st.seq.filter (fun r => r.id != tid) }

inductive DeleteError where
  | notFound (tid : String)
  | deleteNotAllowed
deriving DecidableEq

/-- `delete_transaction` of `services/transactions_service.py`: the test-mode
guard is checked first (raising `DeleteNotAllowedError`), then the existence
lookup (raising `TransactionNotFoundError`); only then is the DAL's delete
invoked.  The second component is the store state after the call: the Python
code raises before any mutation, so on both error paths it is the input
store. -/
def delete_transaction (test_mode : Bool) (st : Store) (tid : String) :
    Except DeleteError Bool × Store :=
  if !test_mode then (.error .deleteNotAllowed, st)
  else if (dal_get_transaction_by_id st tid).isNone then (.error (.notFound tid), st)
  else (.ok true, dal_delete_transaction st tid)

/-! ### Loader id assignment (`banking_api/data/loader.py`, not among the
available sources) -/

/-- Decimal digit characters of `n`, most significant first (`[]` for 0);
the first argument is structural fuel, always called with `fuel = n`. -/
def toCharsAux : Nat → Nat → List Char
  | 0, _ => []
  | _ + 1, 0 => []
  | fuel + 1, n + 1 =>
      toCharsAux fuel ((n + 1) / 10) ++ [Nat.digitChar ((n + 1) % 10)]

def natChars (n : Nat) : List Char := toCharsAux n n

/-- Decimal digits of `i` left-padded with `'0'` to at least 7 characters,
as Python's `f"{i:07d}"`. -/
def padChars (i : Nat) : List Char :=
  List.replicate (7 - (natChars i).length) '0' ++ natChars i

/-- Modelled from the spec: the loader assigns `id` sequentially as
`tx_0000000`, `tx_0000001`, ... in source row order (`tx_` plus the 7-digit
zero-padded row index). -/
def txId (i : Nat) : String := String.mk ('t' :: 'x' :: '_' :: padChars i)

/-- Modelled from the spec: `generate_transaction_ids` assigns one id per
source row, in row order. -/
def generate_transaction_ids (n : Nat) : List String := (List.range n).map txId

/-- Value of a digit character (inverse of `Nat.digitChar` on 0-9). -/
def dVal (c : Char) : Nat := c.toNat - '0'.toNat

/-- Decimal value of a digit-character list, most significant first. -/
def charsVal (a : Nat) : List Char → Nat
  | [] => a
  | c :: cs => charsVal (10 * a + dVal c) cs

/-! ### Customer timeline index (`main.py`, `build_customer_timeline`) -/

/-- Row enumeration `(index, row)` in table order, as `df.iterrows()` with a
positional range index. -/
def enumRows : Nat → List Row → List (Nat × Row)
  | _, [] => []
  | n, r :: rs => (n, r) :: enumRows (n + 1) rs

/-- Append `v` to the list stored under key `k`, inserting the key at the end
when absent (Python dict insertion-order semantics). -/
def appendEntry (m : List (String × List (Int × Nat))) (k : String) (v : Int × Nat) :
    List (String × List (Int × Nat)) :=
  match m with
  | [] => [(k, [v])]
  | (k', vs) :: rest =>
      if k' = k then (k', vs ++ [v]) :: rest else (k', vs) :: appendEntry rest k v

/-- Step-ordered comparison used to sort each customer's timeline
(`timeline[customer_id].sort(key=lambda x: x[0])`); `List.insertionSort`
with this relation is a stable sort by step. -/
def stepLE (a b : Int × Nat) : Prop := a.1 ≤ b.1

instance : DecidableRel stepLE := fun a b => inferInstanceAs (Decidable (a.1 ≤ b.1))

/-- `build_customer_timeline` of `main.py`: one pass over the rows appending
`(step, index)` under `nameOrig`, then each customer's list is sorted
(stably) by step. -/
def build_customer_timeline (df : List Row) : List (String × List (Int × Nat)) :=
  let raw := (enumRows 0 df).foldl
    (fun m p => appendEntry m p.2.nameOrig (p.2.step, p.1)) []
  raw.map (fun kv => (kv.1, List.insertionSort stepLE kv.2))

/-- Modelled from the spec: `DataFrameDAL.get_customer_timeline` /
`timelineFor(customerId)` returns the customer's entry of the timeline
index, or the empty list if the customer is unknown. -/
def get_customer_timeline (m : List (String × List (Int × Nat))) (c : String) :
    List (Int × Nat) :=
  match m.find? (fun kv => kv.1 == c) with
  | some kv => kv.2
  | none => []

/-- Ordering claimed for a customer's timeline: ascending by step, ties kept
in original row order. -/
def stepRefLT (a b : Int × Nat) : Prop := a.1 < b.1 ∨ (a.1 = b.1 ∧ a.2 < b.2)

/-! ### Transaction listing (`services/transactions_service.py` and the
data access layer) -/

structure TxFilters where
  type : Option String
  isFraud : Option Int
  min_amount : Option ℚ
  max_amount : Option ℚ
deriving DecidableEq

/-- AND-combination of the optional filters: exact match on `type`, exact
match on `isFraud`, inclusive amount range. -/
def matchesFilters (f : TxFilters) (r : Row) : Bool :=
  (match f.type with | some t => r.type == t | none => true) &&
  (match f.isFraud with | some v => r.isFraud == v | none => true) &&
  (match f.min_amount with | some m => decide (m ≤ r.amount) | none => true) &&
  (match f.max_amount with | some m => decide (r.amount ≤ m) | none => true)

/-- Modelled from the spec: `DataFrameDAL.get_all_transactions` (the file
`banking_api/data/dataframe_dal.py` is not among the available sources):
filters are AND-combined, page `p` with limit `l` returns rows
`[(p-1)*l, p*l)` of the filtered result in original table order, and
`totalMatching` is the number of filtered rows. -/
def get_all_transactions (rows : List Row) (page limit : Nat)
    (filters : Option TxFilters) : List Row × Nat :=
  let filtered := match filters with
    | none => rows
    | some f => rows.filter (matchesFilters f)
  (((filtered.drop ((page - 1) * limit)).take limit), filtered.length)

/-- `get_transactions` of `services/transactions_service.py`: builds the
filter dictionary (dropping a falsy `type_filter`, i.e. `None` or the empty
string; the other three only when `None`) and passes `None` when the
dictionary is empty. -/
def get_transactions (rows : List Row) (page limit : Nat)
    (type_filter : Option String) (is_fraud : Option Int)
    (min_amount max_amount : Option ℚ) : List Row × Nat :=
  let typeF : Option String := match type_filter with
    | some t => if t = "" then none else some t
    | none => none
  let f : TxFilters :=
    { type := typeF, isFraud := is_fraud
      min_amount := min_amount, max_amount := max_amount }
  let hasAny := typeF.isSome || is_fraud.isSome || min_amount.isSome || max_amount.isSome
  get_all_transactions rows page limit (if hasAny then some f else none)

/-- The filtered result (in table order) that `get_transactions` paginates. -/
def filteredRows (rows : List Row) (type_filter : Option String)
    (is_fraud : Option Int) (min_amount max_amount : Option ℚ) : List Row :=
  let typeF : Option String := match type_filter with
    | some t => if t = "" then none else some t
    | none => none
  rows.filter (matchesFilters
    { type := typeF, isFraud := is_fraud
      min_amount := min_amount, max_amount := max_amount })

/-! ### Concrete data used by witnesses -/

/-- Three-row table used by the pagination witness. -/
def rowsW : List Row :=
  [⟨"tx_0000000", 1, "PAYMENT", 100, "C1", 500, 400, "M1", 0, 0, 0, 0⟩,
   ⟨"tx_0000001", 2, "TRANSFER", 200, "C2", 500, 300, "M2", 0, 0, 0, 0⟩,
   ⟨"tx_0000002", 3, "CASH_OUT", 300, "C1", 300, 0, "M3", 0, 0, 1, 0⟩]

/-- Two-row table used by the timeline witness. -/
def dfTimelineW : List Row :=
  [⟨"tx_0000000", 5, "PAYMENT", 10, "C1", 100, 90, "M1", 0, 0, 0, 0⟩,
   ⟨"tx_0000001", 2, "PAYMENT", 20, "C1", 90, 70, "M1", 0, 0, 0, 0⟩]

/-- One-row store used by the deletion witness. -/
def storeW : Store :=
  { byId := [("tx_0000000", ⟨"tx_0000000", 1, "PAYMENT", 100, "C1", 500, 400, "M1", 0, 0, 0, 0⟩)]
    seq := [⟨"tx_0000000", 1, "PAYMENT", 100, "C1", 500, 400, "M1", 0, 0, 0, 0⟩] }

end Banking

/-! ## Theorems -/

namespace Banking

/-- Evaluation rule for `round2` at explicit rationals. -/
lemma round2_eval (x : ℚ) (n : ℤ) (d : ℕ) (h : 100 * x + 1 / 2 = (n : ℚ) / (d : ℚ)) :
    round2 x = ((n / d : ℤ) : ℚ) / 100 := by
  rw [round2, round_eq, h, Rat.floor_intCast_div_natCast]

/-- A sum of 0/1 entries is the number of 1 entries. -/
lemma sum_eq_countP_one (l : List Int) (h : ∀ x ∈ l, x = 0 ∨ x = 1) :
    l.sum = (l.countP (fun x => x == 1) : Int) := by
  induction l with
  | nil => simp
  | cons a as ih =>
    have ih' := ih (fun x hx => h x (List.mem_cons_of_mem _ hx))
    rcases h a (List.mem_cons_self a as) with h0 | h1
    · subst h0
      simp [List.countP_cons, ih']
    · subst h1
      simp only [List.sum_cons, List.countP_cons, ih']
      simp
      ring

end Banking

namespace Banking

/-- `predict_fraud`'s output expressed through the four rule indicators. -/
lemma predict_fraud_eq (timeline : String → List (Int × Nat))
    (type_ : String) (amount ob nb : ℚ) (no : Option String) (st : Option Int) :
    predict_fraud timeline type_ amount ob nb no st =
      { isFraud := decide (min (fraudScore (balanceRule amount ob nb) (riskyRule type_)
          (highRule amount) (rapidRule timeline no st)) 1 > 0.5)
        probability := round2 (min (fraudScore (balanceRule amount ob nb) (riskyRule type_)
          (highRule amount) (rapidRule timeline no st)) 1) } := by
  unfold predict_fraud fraudScore
  cases h1 : balanceRule amount ob nb <;> cases h2 : riskyRule type_ <;>
    cases h3 : highRule amount <;> cases h4 : rapidRule timeline no st <;> simp

/-- Rounding to two decimals is the identity on every reachable probability. -/
lemma round2_min_fraudScore (b1 b2 b3 b4 : Bool) :
    round2 (min (fraudScore b1 b2 b3 b4) 1) = min (fraudScore b1 b2 b3 b4) 1 := by
  cases b1 <;> cases b2 <;> cases b3 <;> cases b4 <;>
    simp only [fraudScore, round2, cond] <;>
    norm_num [min_def, round_ofNat, round_zero]

/-- Core case analysis behind C8, stated over the four rule indicators. -/
lemma fraudScore_cases (b1 b2 b3 b4 : Bool) :
    (round2 (min (fraudScore b1 b2 b3 b4) 1) = 0 ∨
     round2 (min (fraudScore b1 b2 b3 b4) 1) = 0.3 ∨
     round2 (min (fraudScore b1 b2 b3 b4) 1) = 0.4 ∨
     round2 (min (fraudScore b1 b2 b3 b4) 1) = 0.6 ∨
     round2 (min (fraudScore b1 b2 b3 b4) 1) = 0.7 ∨
     round2 (min (fraudScore b1 b2 b3 b4) 1) = 0.9 ∨
     round2 (min (fraudScore b1 b2 b3 b4) 1) = 1) ∧
    (decide (min (fraudScore b1 b2 b3 b4) 1 > (0.5 : ℚ)) = true ↔
      2 ≤ firedRules b1 b2 b3 b4) ∧
    (decide (min (fraudScore b1 b2 b3 b4) 1 > (0.5 : ℚ)) = true ↔
      (0.6 : ℚ) ≤ round2 (min (fraudScore b1 b2 b3 b4) 1)) := by
  cases b1 <;> cases b2 <;> cases b3 <;> cases b4 <;>
    simp only [fraudScore, firedRules, round2, cond, decide_eq_true_eq] <;>
    norm_num [min_def, round_ofNat, round_zero]

/-- C8: for every input, the probability returned by `predict_fraud` lies in
{0, 0.3, 0.4, 0.6, 0.7, 0.9, 1}, and `isFraud` holds iff at least two of the
four scoring rules fired, equivalently iff the probability is at least 0.6;
a single rule alone never yields a fraud verdict. -/
theorem predict_fraud_range_and_two_rules (timeline : String → List (Int × Nat))
    (type_ : String) (amount ob nb : ℚ) (no : Option String) (st : Option Int) :
    ((predict_fraud timeline type_ amount ob nb no st).probability = 0 ∨
     (predict_fraud timeline type_ amount ob nb no st).probability = 0.3 ∨
     (predict_fraud timeline type_ amount ob nb no st).probability = 0.4 ∨
     (predict_fraud timeline type_ amount ob nb no st).probability = 0.6 ∨
     (predict_fraud timeline type_ amount ob nb no st).probability = 0.7 ∨
     (predict_fraud timeline type_ amount ob nb no st).probability = 0.9 ∨
     (predict_fraud timeline type_ amount ob nb no st).probability = 1) ∧
    ((predict_fraud timeline type_ amount ob nb no st).isFraud = true ↔
      2 ≤ firedRules (balanceRule amount ob nb) (riskyRule type_) (highRule amount)
        (rapidRule timeline no st)) ∧
    ((predict_fraud timeline type_ amount ob nb no st).isFraud = true ↔
      (0.6 : ℚ) ≤ (predict_fraud timeline type_ amount ob nb no st).probability) := by
  rw [predict_fraud_eq]
  exact fraudScore_cases _ _ _ _

/-- C3: on a validated table (both flags in {0,1}), the startup fraud
summary counts frauds, flagged rows, and their intersection, with
precision = intersection/flagged (0 when nothing is flagged) and
recall = intersection/frauds (0 when there are no frauds), both rounded to
2 decimals; on the worked 5-row example both equal 0.67. -/
theorem compute_fraud_stats_correct (df : List Row)
    (h : ∀ r ∈ df, (r.isFraud = 0 ∨ r.isFraud = 1) ∧
      (r.isFlaggedFraud = 0 ∨ r.isFlaggedFraud = 1)) :
    (compute_fraud_stats df).total_frauds = (df.countP (fun r => r.isFraud == 1) : Int) ∧
    (compute_fraud_stats df).flagged = (df.countP (fun r => r.isFlaggedFraud == 1) : Int) ∧
    (compute_fraud_stats df).precision =
      (if df.countP (fun r => r.isFlaggedFraud == 1) = 0 then 0 else
        round2 ((df.countP (fun r => r.isFraud == 1 && r.isFlaggedFraud == 1) : ℚ) /
          (df.countP (fun r => r.isFlaggedFraud == 1) : ℚ))) ∧
    (compute_fraud_stats df).recall_ =
      (if df.countP (fun r => r.isFraud == 1) = 0 then 0 else
        round2 ((df.countP (fun r => r.isFraud == 1 && r.isFlaggedFraud == 1) : ℚ) /
          (df.countP (fun r => r.isFraud == 1) : ℚ))) ∧
    (compute_fraud_stats exampleDf).precision = 0.67 ∧
    (compute_fraud_stats exampleDf).recall_ = 0.67 := by
  have hF : (df.map (fun r => r.isFraud)).sum = (df.countP (fun r => r.isFraud == 1) : Int) := by
    rw [sum_eq_countP_one _ (fun x hx => by
      obtain ⟨r, hr, rfl⟩ := List.mem_map.mp hx
      exact (h r hr).1)]
    rw [List.countP_map]
    rfl
  have hG : (df.map (fun r => r.isFlaggedFraud)).sum =
      (df.countP (fun r => r.isFlaggedFraud == 1) : Int) := by
    rw [sum_eq_countP_one _ (fun x hx => by
      obtain ⟨r, hr, rfl⟩ := List.mem_map.mp hx
      exact (h r hr).2)]
    rw [List.countP_map]
    rfl
  have hB : ((df.filter (fun r => r.isFraud == 1 && r.isFlaggedFraud == 1)).length) =
      df.countP (fun r => r.isFraud == 1 && r.isFlaggedFraud == 1) :=
    (List.countP_eq_length_filter _ _).symm
  have hround0 : round2 0 = 0 := by
    rw [round2]
    norm_num
  have hex : compute_fraud_stats exampleDf =
      { total_frauds := 3, flagged := 3
        precision := round2 ((2 : ℚ) / 3), recall_ := round2 ((2 : ℚ) / 3) } := by
    unfold compute_fraud_stats exampleDf
    norm_num [List.countP_cons, List.filter,
      show ((0 : Int) == 1) = false from by decide,
      show ((1 : Int) == 1) = true from by decide]
  have hval : round2 ((2 : ℚ) / 3) = 0.67 := by
    rw [round2_eval ((2 : ℚ) / 3) 403 6 (by norm_num)]
    norm_num
  refine ⟨?_, ?_, ?_, ?_, ?_, ?_⟩
  · unfold compute_fraud_stats
    exact hF
  · unfold compute_fraud_stats
    exact hG
  · unfold compute_fraud_stats
    dsimp only
    rw [hG, hB]
    by_cases h0 : df.countP (fun r => r.isFlaggedFraud == 1) = 0
    · rw [if_pos h0, h0]
      simpa using hround0
    · rw [if_neg h0, if_pos (by exact_mod_cast Nat.pos_of_ne_zero h0)]
      push_cast
      rfl
  · unfold compute_fraud_stats
    dsimp only
    rw [hF, hB]
    by_cases h0 : df.countP (fun r => r.isFraud == 1) = 0
    · rw [if_pos h0, h0]
      simpa using hround0
    · rw [if_neg h0, if_pos (by exact_mod_cast Nat.pos_of_ne_zero h0)]
      push_cast
      rfl
  · rw [hex, hval]
  · rw [hex, hval]

/-- C3 (witness): the theorem applied to the worked 5-row example yields
precision 0.67 and recall 0.67. -/
theorem compute_fraud_stats_correct_witness :
    (compute_fraud_stats exampleDf).precision = 0.67 ∧
    (compute_fraud_stats exampleDf).recall_ = 0.67 := by
  have h := compute_fraud_stats_correct exampleDf (by decide)
  exact ⟨h.2.2.2.2.1, h.2.2.2.2.2⟩

/-- `get_transactions` always returns the `[(p-1)·l, p·l)` window of the
filtered result together with the filtered row count (also when the service
passes `None` instead of an empty filter dictionary). -/
lemma get_transactions_eq (rows : List Row) (p l : Nat) (tf : Option String)
    (isf : Option Int) (mn mx : Option ℚ) :
    get_transactions rows p l tf isf mn mx =
      (((filteredRows rows tf isf mn mx).drop ((p - 1) * l)).take l,
        (filteredRows rows tf isf mn mx).length) := by
  unfold get_transactions get_all_transactions filteredRows
  dsimp only
  set tF : Option String := (match tf with
    | some t => if t = "" then none else some t
    | none => none) with htF
  by_cases hA : (tF.isSome || isf.isSome || mn.isSome || mx.isSome) = true
  · rw [if_pos hA]
  · rw [if_neg hA]
    simp only [Bool.or_eq_true, Option.isSome_iff_exists, not_or, not_exists] at hA
    obtain ⟨⟨⟨h1, h2⟩, h3⟩, h4⟩ := hA
    have e1 : tF = none := Option.eq_none_iff_forall_not_mem.mpr (fun a ha => h1 a ha)
    have e2 : isf = none := Option.eq_none_iff_forall_not_mem.mpr (fun a ha => h2 a ha)
    have e3 : mn = none := Option.eq_none_iff_forall_not_mem.mpr (fun a ha => h3 a ha)
    have e4 : mx = none := Option.eq_none_iff_forall_not_mem.mpr (fun a ha => h4 a ha)
    rw [e1, e2, e3, e4]
    have : rows.filter (matchesFilters
        { type := none, isFraud := none, min_amount := none, max_amount := none }) = rows :=
      List.filter_eq_self.mpr (fun a _ => rfl)
    rw [this]

/-- Chopping a list into `k`-sized windows and concatenating them gives the
list back, provided enough windows are taken. -/
lemma join_take_drop {α : Type} (k : ℕ) :
    ∀ (N : ℕ) (l : List α), l.length ≤ N * k →
      ((List.range N).map (fun i => (l.drop (i * k)).take k)).flatten = l := by
  intro N
  induction N with
  | zero =>
    intro l hl
    simp only [Nat.zero_mul, Nat.le_zero] at hl
    rw [List.length_eq_zero.mp hl]
    rfl
  | succ n ih =>
    intro l hl
    rw [List.range_succ_eq_map]
    simp only [List.map_cons, List.map_map, List.flatten_cons, Nat.zero_mul, List.drop_zero]
    have hmap : (List.range n).map ((fun i => (l.drop (i * k)).take k) ∘ Nat.succ) =
        (List.range n).map (fun i => ((l.drop k).drop (i * k)).take k) := by
      refine List.map_congr_left (fun i _ => ?_)
      simp only [Function.comp]
      rw [List.drop_drop]
      congr 2
      calc Nat.succ i * k = i * k + k := Nat.succ_mul i k
        _ = k + i * k := Nat.add_comm _ _
  -- `List.drop_drop : (l.drop n).drop m = l.drop (m + n)` orientation handled above
    rw [Nat.succ_mul] at hl
    rw [hmap, ih (l.drop k) (by
      rw [List.length_drop]
      omega)]
    exact List.take_append_drop k l

/-- Every positive amount is assigned to some bin. -/
lemma binIndex_pos (x : ℚ) (hx : 0 < x) : ∃ i, binIndex x = some i := by
  unfold binIndex
  split_ifs with h1 h2 h3 h4 h5 h6 h7 h8
  · exact ⟨0, rfl⟩
  · exact ⟨1, rfl⟩
  · exact ⟨2, rfl⟩
  · exact ⟨3, rfl⟩
  · exact ⟨4, rfl⟩
  · exact ⟨5, rfl⟩
  · exact ⟨6, rfl⟩
  · exact ⟨7, rfl⟩
  · push_neg at h1 h2 h3 h4 h5 h6 h7
    exact absurd (h7 (h6 (h5 (h4 (h3 (h2 (h1 hx))))))) h8

/-- Only positive amounts are assigned to a bin. -/
lemma binIndex_some_pos (x : ℚ) (i : Nat) (h : binIndex x = some i) : 0 < x := by
  unfold binIndex at h
  split_ifs at h with h1 h2 h3 h4 h5 h6 h7 h8 <;>
    first
      | exact h1.1
      | linarith [h2.1]
      | linarith [h3.1]
      | linarith [h4.1]
      | linarith [h5.1]
      | linarith [h6.1]
      | linarith [h7.1]
      | linarith [h8]

/-- Bin indices range over 0..7. -/
lemma binIndex_lt8 (x : ℚ) (i : Nat) (h : binIndex x = some i) : i < 8 := by
  unfold binIndex at h
  split_ifs at h <;> simp_all <;> omega

lemma sum_map_add {α : Type} (l : List α) (f g : α → Nat) :
    (l.map (fun i => f i + g i)).sum = (l.map f).sum + (l.map g).sum := by
  induction l with
  | nil => simp
  | cons a as ih => simp [ih]; omega

/-- Each amount contributes to exactly one bin count: one when positive,
none otherwise. -/
lemma indicator_sum (x : ℚ) :
    ((List.range 8).map (fun i => if binIndex x == some i then 1 else 0)).sum
      = if 0 < x then 1 else 0 := by
  rcases hbi : binIndex x with _ | i
  · have hx : ¬ 0 < x := fun h => by
      obtain ⟨j, hj⟩ := binIndex_pos x h
      rw [hbi] at hj
      exact Option.noConfusion hj
    rw [if_neg hx]
    simp [hbi]
  · rw [if_pos (binIndex_some_pos x i hbi)]
    have hi8 : i < 8 := binIndex_lt8 x i hbi
    have : ∀ j : Nat, j < 8 →
        ((List.range 8).map (fun k => if (some j == some k) then 1 else 0)).sum = 1 := by
      intro j hj
      interval_cases j <;> decide
    exact this i hi8

/-- The eight bin counts sum to the number of positive amounts. -/
lemma amount_distribution_sum (xs : List ℚ) :
    (amount_distribution xs).sum = xs.countP (fun x => decide (0 < x)) := by
  induction xs with
  | nil => decide
  | cons x xs ih =>
    unfold amount_distribution at ih ⊢
    have hcons : ∀ i : Nat,
        (x :: xs).countP (fun y => binIndex y == some i) =
          xs.countP (fun y => binIndex y == some i) +
            (if binIndex x == some i then 1 else 0) := by
      intro i
      rw [List.countP_cons]
    calc ((List.range 8).map (fun i => (x :: xs).countP (fun y => binIndex y == some i))).sum
        = ((List.range 8).map (fun i => xs.countP (fun y => binIndex y == some i) +
            (if binIndex x == some i then 1 else 0))).sum := by
          congr 1
          exact List.map_congr_left (fun i _ => hcons i)
      _ = ((List.range 8).map (fun i => xs.countP (fun y => binIndex y == some i))).sum +
            ((List.range 8).map (fun i => if binIndex x == some i then 1 else 0)).sum :=
          sum_map_add _ _ _
      _ = xs.countP (fun x => decide (0 < x)) + (if 0 < x then 1 else 0) := by
          rw [ih, indicator_sum]
      _ = (x :: xs).countP (fun x => decide (0 < x)) := by
          rw [List.countP_cons]
          simp [decide_eq_true_eq]

/-- C2 (counterexample): a single row with amount exactly 0 is counted in no
bin (the claim says it is counted in exactly one, the `0-100` bin), and a
single row with amount exactly 100 is counted in the `0-100` bin, not the
`100-500` bin whose lower edge it equals. -/
theorem amount_distribution_counterexample :
    amount_distribution [(0 : ℚ)] = [0, 0, 0, 0, 0, 0, 0, 0] ∧
    (amount_distribution [(0 : ℚ)]).sum = 0 ∧
    amount_distribution [(100 : ℚ)] = [1, 0, 0, 0, 0, 0, 0, 0] := by
  decide

/-- C2 (amended): the histogram's bins are left-open right-closed
`(edge_i, edge_{i+1}]` (the last unbounded above): the eight counts sum to
the number of rows with strictly positive amount (each such row falling in
exactly one bin), a row is assigned some bin iff its amount is positive
(amount 0 is counted nowhere), and a row with amount equal to an interior
edge belongs to the bin whose upper edge it equals, as `binIndex 100 = bin 0`
and `binIndex 100000 = bin 6` show. -/
theorem amount_distribution_amended (xs : List ℚ) :
    (amount_distribution xs).sum = xs.countP (fun x => decide (0 < x)) ∧
    (∀ x : ℚ, (∃ i, binIndex x = some i) ↔ 0 < x) ∧
    binIndex 0 = none ∧
    binIndex 100 = some 0 ∧
    binIndex 100000 = some 6 := by
  refine ⟨amount_distribution_sum xs, fun x => ⟨fun ⟨i, hi⟩ => binIndex_some_pos x i hi,
    binIndex_pos x⟩, by decide, by decide, by decide⟩

/-- C10: every monetary aggregate the customer operations return is the
DAL's aggregate rounded to 2 decimal places, hence an integer number of
hundredths. -/
theorem customer_amounts_rounded (s : CustomerStatsRaw) (l : List TopCustomerRaw) :
    ((get_customer_by_id (some s)).map (fun c => c.avg_amount)) = some (round2 s.avg_amount) ∧
    (get_top_customers l).map (fun c => c.total_amount) =
      l.map (fun c => round2 c.total_amount) ∧
    (get_top_customers l).map (fun c => c.avg_amount) =
      l.map (fun c => round2 c.avg_amount) ∧
    (∀ c, get_customer_by_id (some s) = some c → ∃ n : ℤ, c.avg_amount = (n : ℚ) / 100) ∧
    (∀ t ∈ get_top_customers l, (∃ n : ℤ, t.total_amount = (n : ℚ) / 100) ∧
      (∃ n : ℤ, t.avg_amount = (n : ℚ) / 100)) := by
  have h2 : ∀ x : ℚ, ∃ n : ℤ, round2 x = (n : ℚ) / 100 := fun x => ⟨round (100 * x), rfl⟩
  refine ⟨rfl, ?_, ?_, ?_, ?_⟩
  · simp [get_top_customers, List.map_map]
  · simp [get_top_customers, List.map_map]
  · intro c hc
    obtain rfl := (Option.some.inj hc).symm
    exact h2 s.avg_amount
  · intro t ht
    obtain ⟨c, _, rfl⟩ := List.mem_map.mp ht
    exact ⟨h2 _, h2 _⟩

/-- C10 (witness): a DAL average of 1/3 is returned as 0.33. -/
theorem customer_amounts_rounded_witness :
    ((get_customer_by_id (some ⟨"C7", 3, 1 / 3, false⟩)).map (fun c => c.avg_amount)) =
      some 0.33 := by
  have h := customer_amounts_rounded ⟨"C7", 3, 1 / 3, false⟩ []
  rw [h.1]
  rw [round2_eval ((1 : ℚ) / 3) 203 6 (by norm_num)]
  norm_num

/-- C5: a delete with an unknown id (in test mode, where deletion is
otherwise permitted) fails with the not-found error, a delete outside test
mode fails with the delete-forbidden error even for a valid id, and on every
failing path the store — primary-key index and order-preserving sequence —
is returned unchanged, so an existing row remains retrievable afterward. -/
theorem delete_transaction_failure_safe (st : Store) (tid : String) :
    (dal_get_transaction_by_id st tid = none →
      delete_transaction true st tid = (.error (.notFound tid), st)) ∧
    (delete_transaction false st tid = (.error .deleteNotAllowed, st)) ∧
    (∀ r, dal_get_transaction_by_id st tid = some r →
      dal_get_transaction_by_id (delete_transaction false st tid).2 tid = some r) := by
  refine ⟨fun h => ?_, ?_, fun r hr => ?_⟩
  · simp [delete_transaction, h]
  · simp [delete_transaction]
  · simp [delete_transaction, hr]

/-- C5 (witness): on the one-row store, deleting an unknown id in test mode
reports not-found and leaves the store intact, and deleting the existing id
outside test mode reports delete-forbidden and leaves the store intact. -/
theorem delete_transaction_failure_safe_witness :
    delete_transaction true storeW "tx_zzz" = (.error (.notFound "tx_zzz"), storeW) ∧
    delete_transaction false storeW "tx_0000000" = (.error .deleteNotAllowed, storeW) := by
  exact ⟨(delete_transaction_failure_safe storeW "tx_zzz").1 rfl,
    (delete_transaction_failure_safe storeW "tx_0000000").2.1⟩

/-- C4: for every filter set, limit in [1,100] and page p >= 1,
`get_transactions` returns exactly the rows at positions `[(p-1)·l, p·l)` of
the filtered result in table order together with `totalMatching` equal to
the filtered row count (the same on every page); a page past the end is
empty; and for any number of pages covering the result, the concatenation of
the pages is the whole filtered result — so pages neither overlap nor skip
rows — and their lengths sum to `totalMatching`. -/
theorem get_transactions_paginates (rows : List Row) (tf : Option String)
    (isf : Option Int) (mn mx : Option ℚ) (l : Nat) (_hl1 : 1 ≤ l) (_hl2 : l ≤ 100)
    (p : Nat) (_hp : 1 ≤ p) :
    (get_transactions rows p l tf isf mn mx).1 =
      ((filteredRows rows tf isf mn mx).drop ((p - 1) * l)).take l ∧
    (get_transactions rows p l tf isf mn mx).2 = (filteredRows rows tf isf mn mx).length ∧
    ((filteredRows rows tf isf mn mx).length ≤ (p - 1) * l →
      (get_transactions rows p l tf isf mn mx).1 = []) ∧
    (∀ N, (filteredRows rows tf isf mn mx).length ≤ N * l →
      ((List.range N).map (fun i => (get_transactions rows (i + 1) l tf isf mn mx).1)).flatten =
        filteredRows rows tf isf mn mx ∧
      ((List.range N).map
          (fun i => ((get_transactions rows (i + 1) l tf isf mn mx).1).length)).sum =
        (filteredRows rows tf isf mn mx).length) := by
  refine ⟨by rw [get_transactions_eq], by rw [get_transactions_eq], fun hpast => ?_, fun N hN => ?_⟩
  · rw [get_transactions_eq]
    rw [List.drop_eq_nil_of_le hpast]
    simp
  · have hpages : (List.range N).map (fun i => (get_transactions rows (i + 1) l tf isf mn mx).1) =
        (List.range N).map (fun i => ((filteredRows rows tf isf mn mx).drop (i * l)).take l) := by
      refine List.map_congr_left (fun i _ => ?_)
      rw [get_transactions_eq]
      simp
    have hjoin := join_take_drop l N (filteredRows rows tf isf mn mx) hN
    constructor
    · rw [hpages, hjoin]
    · have : ((List.range N).map
          (fun i => ((get_transactions rows (i + 1) l tf isf mn mx).1).length)).sum =
          (((List.range N).map
            (fun i => (get_transactions rows (i + 1) l tf isf mn mx).1)).flatten).length := by
        rw [List.length_flatten, List.map_map]
        rfl
      rw [this, hpages, hjoin]

/-- C4 (witness): on the three-row table with no filters and limit 2, page 2
holds exactly the third row, `totalMatching` is 3 on both pages, and the two
pages concatenate to the whole table. -/
theorem get_transactions_paginates_witness :
    (get_transactions rowsW 2 2 none none none none).2 = 3 ∧
    (get_transactions rowsW 2 2 none none none none).1 =
      [⟨"tx_0000002", 3, "CASH_OUT", 300, "C1", 300, 0, "M3", 0, 0, 1, 0⟩] ∧
    (get_transactions rowsW 1 2 none none none none).1 ++
      (get_transactions rowsW 2 2 none none none none).1 = rowsW := by
  have h2 := get_transactions_paginates rowsW none none none none 2 (by norm_num) (by norm_num)
    2 (by norm_num)
  have h1 := get_transactions_paginates rowsW none none none none 2 (by norm_num) (by norm_num)
    1 (by norm_num)
  refine ⟨?_, ?_, ?_⟩
  · rw [h2.2.1]
    rfl
  · rw [h2.1]
    rfl
  · rw [h1.1, h2.1]
    rfl

lemma charsVal_append (l1 l2 : List Char) (a : Nat) :
    charsVal a (l1 ++ l2) = charsVal (charsVal a l1) l2 := by
  induction l1 generalizing a with
  | nil => rfl
  | cons c cs ih =>
    show charsVal (10 * a + dVal c) (cs ++ l2) = charsVal (charsVal (10 * a + dVal c) cs) l2
    exact ih (10 * a + dVal c)

lemma dVal_digitChar (d : Nat) (hd : d < 10) : dVal (Nat.digitChar d) = d := by
  interval_cases d <;> rfl

/-- Reading back the digit characters of `n` (with any accumulator) recovers
`n` in the low digits. -/
lemma charsVal_toCharsAux (fuel : Nat) :
    ∀ n a, n ≤ fuel →
      charsVal a (toCharsAux fuel n) = a * 10 ^ (toCharsAux fuel n).length + n := by
  induction fuel with
  | zero =>
    intro n a hn
    have hn0 : n = 0 := Nat.le_zero.mp hn
    subst hn0
    show a = a * 10 ^ ([] : List Char).length + 0
    simp
  | succ f ih =>
    intro n a hn
    cases n with
    | zero =>
      show a = a * 10 ^ ([] : List Char).length + 0
      simp
    | succ m =>
      have hdiv : (m + 1) / 10 ≤ f := by
        have := Nat.div_lt_self (Nat.succ_pos m) (by norm_num : 1 < 10)
        omega
      show charsVal a (toCharsAux f ((m + 1) / 10) ++ [Nat.digitChar ((m + 1) % 10)]) = _
      rw [charsVal_append, ih ((m + 1) / 10) a hdiv]
      show 10 * (a * 10 ^ (toCharsAux f ((m + 1) / 10)).length + (m + 1) / 10) +
          dVal (Nat.digitChar ((m + 1) % 10)) = _
      rw [dVal_digitChar _ (Nat.mod_lt _ (by norm_num))]
      rw [show toCharsAux (f + 1) (m + 1) =
        toCharsAux f ((m + 1) / 10) ++ [Nat.digitChar ((m + 1) % 10)] from rfl]
      rw [List.length_append]
      simp only [List.length_cons, List.length_nil, Nat.zero_add]
      have hmod := Nat.div_add_mod (m + 1) 10
      rw [pow_succ]
      calc 10 * (a * 10 ^ (toCharsAux f ((m + 1) / 10)).length + (m + 1) / 10) + (m + 1) % 10
          = a * (10 ^ (toCharsAux f ((m + 1) / 10)).length * 10) +
              (10 * ((m + 1) / 10) + (m + 1) % 10) := by ring
        _ = a * (10 ^ (toCharsAux f ((m + 1) / 10)).length * 10) + (m + 1) := by rw [hmod]

lemma charsVal_replicate_zero (k : Nat) : charsVal 0 (List.replicate k '0') = 0 := by
  induction k with
  | zero => rfl
  | succ j ih =>
    show charsVal (10 * 0 + dVal '0') (List.replicate j '0') = 0
    exact ih

/-- Reading back the padded decimal representation recovers the number. -/
lemma charsVal_padChars (i : Nat) : charsVal 0 (padChars i) = i := by
  unfold padChars natChars
  rw [charsVal_append, charsVal_replicate_zero, charsVal_toCharsAux i i 0 (le_refl i)]
  simp

/-- Distinct row indices receive distinct identifiers. -/
lemma txId_injective : Function.Injective txId := by
  intro i j h
  have hdata : ('t' :: 'x' :: '_' :: padChars i) = ('t' :: 'x' :: '_' :: padChars j) :=
    congrArg String.data h
  have hpad : padChars i = padChars j := by
    injection hdata with _ h1
    injection h1 with _ h2
    injection h2 with _ h3
  calc i = charsVal 0 (padChars i) := (charsVal_padChars i).symm
    _ = charsVal 0 (padChars j) := by rw [hpad]
    _ = j := charsVal_padChars j

/-- C6: the loader assigns ids deterministically and sequentially in source
row order as `tx_0000000`, `tx_0000001`, ...: the id list of an `n`-row
table has length `n`, its `i`-th element is `txId i` (the `tx_` prefix plus
the 7-digit zero-padded row index), all ids are distinct, and a 3-row table
receives exactly `tx_0000000`, `tx_0000001`, `tx_0000002`. -/
theorem generate_transaction_ids_correct (n : Nat) :
    (generate_transaction_ids n).length = n ∧
    (∀ i, i < n → (generate_transaction_ids n)[i]? = some (txId i)) ∧
    (generate_transaction_ids n).Nodup ∧
    generate_transaction_ids 3 = ["tx_0000000", "tx_0000001", "tx_0000002"] := by
  refine ⟨by simp [generate_transaction_ids], fun i hi => ?_, ?_, by decide⟩
  · simp [generate_transaction_ids, List.getElem?_range hi]
  · exact (List.nodup_range n).map txId_injective

/-- C6 (witness): the theorem applied to a 3-row table. -/
theorem generate_transaction_ids_correct_witness :
    (generate_transaction_ids 3)[1]? = some (txId 1) ∧ (generate_transaction_ids 3).Nodup := by
  have h := generate_transaction_ids_correct 3
  exact ⟨h.2.1 1 (by norm_num), h.2.2.1⟩

/-- The source's timeline scan reports a hit exactly when some entry lies at
step distance exactly 1 (a different step within the gap window). -/
lemma any_rapid_iff (L : List (Int × Nat)) (st : Int) :
    ((L.any fun p => (p.1 != st) && (|p.1 - st| ≤ RAPID_TRANSACTION_STEP_GAP)) = true) ↔
      ∃ p ∈ L, 1 ≤ |p.1 - st| ∧ |p.1 - st| ≤ 1 ∧ p.1 ≠ st := by
  simp only [List.any_eq_true, Bool.and_eq_true, bne_iff_ne, decide_eq_true_eq,
    RAPID_TRANSACTION_STEP_GAP]
  refine exists_congr fun p => and_congr_right fun _ => ⟨fun h => ⟨?_, h.2, h.1⟩,
    fun h => ⟨h.2.2, h.2.1⟩⟩
  exact Int.one_le_abs (sub_ne_zero.mpr h.1)

lemma s1_eq (amount ob nb : ℚ) :
    (if |ob - amount - nb| > (0.01 : ℚ) then (0.3 : ℚ) else 0) =
      cond (balanceRule amount ob nb) 0.3 0 := by
  unfold balanceRule BALANCE_TOLERANCE
  by_cases h : |ob - amount - nb| > (0.01 : ℚ) <;> simp [h]

lemma s2_eq (type_ : String) :
    (if type_ = "CASH_OUT" ∨ type_ = "TRANSFER" then (0.3 : ℚ) else 0) =
      cond (riskyRule type_) 0.3 0 := by
  unfold riskyRule RISKY_TYPES
  by_cases h : type_ = "CASH_OUT" ∨ type_ = "TRANSFER" <;> simp [h]

lemma s3_eq (amount : ℚ) :
    (if amount > (100000 : ℚ) then (0.4 : ℚ) else 0) = cond (highRule amount) 0.4 0 := by
  unfold highRule HIGH_AMOUNT_THRESHOLD
  by_cases h : amount > (100000 : ℚ) <;> simp [h]

lemma s4_eq (timeline : String → List (Int × Nat)) (c : String) (st : Int) :
    (if c ≠ "" ∧ ∃ p ∈ timeline c, 1 ≤ |p.1 - st| ∧ |p.1 - st| ≤ 1 ∧ p.1 ≠ st
        then (0.3 : ℚ) else 0) =
      cond (rapidRule timeline (some c) (some st)) 0.3 0 := by
  unfold rapidRule
  by_cases hc : c = ""
  · simp [hc]
  · by_cases he : ∃ p ∈ timeline c, 1 ≤ |p.1 - st| ∧ |p.1 - st| ≤ 1 ∧ p.1 ≠ st
    · simp [hc, he, (any_rapid_iff (timeline c) st).mpr he, Bool.cond_eq_ite, bne_iff_ne]
    · cases hA : (timeline c).any
          (fun p => (p.1 != st) && (|p.1 - st| ≤ RAPID_TRANSACTION_STEP_GAP)) with
      | true => exact absurd ((any_rapid_iff (timeline c) st).mp hA) he
      | false => simp [hc, he, hA]

/-- The amended claim's probability formula coincides with the score the
code computes. -/
lemma claimAmended_eq (timeline : String → List (Int × Nat))
    (type_ : String) (amount ob nb : ℚ) (no : Option String) (st : Option Int) :
    claimProbabilityC1Amended timeline type_ amount ob nb no st =
      min (fraudScore (balanceRule amount ob nb) (riskyRule type_) (highRule amount)
        (rapidRule timeline no st)) 1 := by
  unfold claimProbabilityC1Amended fraudScore
  cases no with
  | none => cases st <;> simp [rapidRule, s1_eq, s2_eq, s3_eq]
  | some c =>
    cases st with
    | none => simp [rapidRule, s1_eq, s2_eq, s3_eq]
    | some s =>
      dsimp only
      rw [s1_eq, s2_eq, s3_eq, s4_eq]

/-- C1 (counterexample): with the timeline that gives every customer id,
including `""`, one transaction at step 1, the claim's formula assigns
probability 0.3 to a PAYMENT of amount 0 predicted for `originCustomer = ""`
at step 2 (the rapid rule is consulted because both optional arguments are
supplied), but `predict_fraud` returns probability 0 (its guard tests
truthiness, not presence, of the customer id). -/
theorem predict_fraud_claim_counterexample :
    (predict_fraud timelineCex "PAYMENT" 0 0 0 (some "") (some 2)).probability = 0 ∧
    claimProbabilityC1 timelineCex "PAYMENT" 0 0 0 (some "") (some 2) = 0.3 := by
  constructor
  · rw [predict_fraud_eq]
    have hb : balanceRule 0 0 0 = false := by
      unfold balanceRule BALANCE_TOLERANCE
      rw [decide_eq_false_iff_not]
      norm_num
    have hr : riskyRule "PAYMENT" = false := by decide
    have hh : highRule 0 = false := by
      unfold highRule HIGH_AMOUNT_THRESHOLD
      rw [decide_eq_false_iff_not]
      norm_num
    have hp : rapidRule timelineCex (some "") (some 2) = false := by decide
    rw [hb, hr, hh, hp]
    simp only [fraudScore, round2, cond]
    norm_num [min_def, round_zero]
  · have hs4 : ∃ p ∈ timelineCex "", 1 ≤ |p.1 - (2 : Int)| ∧ |p.1 - 2| ≤ 1 ∧ p.1 ≠ 2 :=
      ⟨(1, 0), by decide, by decide, by decide, by decide⟩
    unfold claimProbabilityC1
    dsimp only
    rw [if_pos hs4]
    rw [if_neg (by norm_num : ¬(|(0 : ℚ) - 0 - 0| > (0.01 : ℚ)))]
    rw [if_neg (by decide : ¬("PAYMENT" = "CASH_OUT" ∨ "PAYMENT" = "TRANSFER"))]
    rw [if_neg (by norm_num : ¬((0 : ℚ) > 100000))]
    norm_num [min_def]

/-- C1 (amended): for every input, `predict_fraud` returns probability
`min(score, 1)` where score adds 0.3 for the balance rule, 0.3 for a
CASH_OUT/TRANSFER type, 0.4 for amount over 100000, and — when both
`originCustomer` and `step` are supplied and `originCustomer` is non-empty
(when it is the empty string the rule is skipped) — 0.3 if some timeline
entry of that customer satisfies `1 ≤ |existingStep - step| ≤ 1` with
`existingStep ≠ step` (at most once); and `isFraud` holds iff the
probability exceeds 0.5. -/
theorem predict_fraud_matches_claim_formula (timeline : String → List (Int × Nat))
    (type_ : String) (amount ob nb : ℚ) (no : Option String) (st : Option Int) :
    (predict_fraud timeline type_ amount ob nb no st).probability =
      claimProbabilityC1Amended timeline type_ amount ob nb no st ∧
    ((predict_fraud timeline type_ amount ob nb no st).isFraud = true ↔
      claimProbabilityC1Amended timeline type_ amount ob nb no st > 0.5) := by
  rw [predict_fraud_eq, claimAmended_eq]
  exact ⟨round2_min_fraudScore _ _ _ _, by simp⟩

/-- C9: supplying the empty string as `originCustomer` disables the rapid
rule entirely, so the prediction agrees with the one for an absent
`originCustomer`. -/
theorem predict_fraud_empty_name_orig (timeline : String → List (Int × Nat))
    (type_ : String) (amount ob nb : ℚ) (st : Option Int) :
    predict_fraud timeline type_ amount ob nb (some "") st =
      predict_fraud timeline type_ amount ob nb none st := by
  rw [predict_fraud_eq, predict_fraud_eq]
  cases st <;> rfl

/-! ### Customer timeline index -/

lemma get_timeline_nil (c : String) : get_customer_timeline [] c = [] := rfl

lemma get_timeline_cons (k : String) (vs : List (Int × Nat))
    (rest : List (String × List (Int × Nat))) (c : String) :
    get_customer_timeline ((k, vs) :: rest) c =
      if k = c then vs else get_customer_timeline rest c := by
  by_cases h : k = c
  · rw [if_pos h]
    unfold get_customer_timeline
    rw [List.find?_cons_of_pos _ (by simp [h])]
  · rw [if_neg h]
    unfold get_customer_timeline
    rw [List.find?_cons_of_neg _ (by simp [h])]

/-- Looking up after `appendEntry` appends the new value for the matching
key and is transparent for every other key. -/
lemma get_timeline_appendEntry (m : List (String × List (Int × Nat))) (k : String)
    (v : Int × Nat) (c : String) :
    get_customer_timeline (appendEntry m k v) c =
      if c = k then get_customer_timeline m c ++ [v] else get_customer_timeline m c := by
  induction m with
  | nil =>
    show get_customer_timeline [(k, [v])] c = _
    rw [get_timeline_cons]
    by_cases h : c = k
    · rw [if_pos h, if_pos h.symm]
      rfl
    · rw [if_neg h, if_neg (fun e => h e.symm)]
  | cons kv rest ih =>
    obtain ⟨k', vs⟩ := kv
    show get_customer_timeline
      (if k' = k then (k', vs ++ [v]) :: rest else (k', vs) :: appendEntry rest k v) c = _
    by_cases hk : k' = k
    · rw [if_pos hk]
      subst hk
      rw [get_timeline_cons, get_timeline_cons]
      by_cases hc : k' = c
      · rw [if_pos hc, if_pos hc.symm, if_pos hc]
      · rw [if_neg hc, if_neg hc, if_neg (fun e => hc e.symm)]
    · rw [if_neg hk]
      rw [get_timeline_cons, get_timeline_cons, ih]
      by_cases hc : k' = c
      · have hck : ¬ c = k := fun e => hk (hc.trans e)
        rw [if_pos hc, if_pos hc, if_neg hck]
      · rw [if_neg hc, if_neg hc]

/-- Folding the rows into the index collects, per customer, the `(step, idx)`
pairs of that customer's rows in encounter order. -/
lemma get_timeline_foldl (l : List (Nat × Row)) :
    ∀ (m : List (String × List (Int × Nat))) (c : String),
      get_customer_timeline
          (l.foldl (fun m p => appendEntry m p.2.nameOrig (p.2.step, p.1)) m) c =
        get_customer_timeline m c ++
          (l.filter (fun p => p.2.nameOrig == c)).map (fun p => (p.2.step, p.1)) := by
  induction l with
  | nil =>
    intro m c
    simp
  | cons p ps ih =>
    intro m c
    simp only [List.foldl_cons]
    rw [ih, get_timeline_appendEntry]
    by_cases hc : c = p.2.nameOrig
    · rw [if_pos hc, List.filter_cons, if_pos (by simp [hc.symm])]
      simp
    · have hne : ¬ p.2.nameOrig = c := fun e => hc e.symm
      rw [if_neg hc, List.filter_cons, if_neg (by simp [hne])]

/-- `find?` of a key commutes with mapping over the stored values. -/
lemma find?_map_keys (m : List (String × List (Int × Nat)))
    (g : List (Int × Nat) → List (Int × Nat)) (c : String) :
    (m.map (fun kv => (kv.1, g kv.2))).find? (fun kv => kv.1 == c) =
      (m.find? (fun kv => kv.1 == c)).map (fun kv => (kv.1, g kv.2)) := by
  induction m with
  | nil => rfl
  | cons kv rest ih =>
    by_cases h : kv.1 = c
    · rw [List.map_cons, List.find?_cons_of_pos _ (by simp [h]),
        List.find?_cons_of_pos _ (by simp [h])]
      rfl
    · rw [List.map_cons, List.find?_cons_of_neg _ (by simp [h]),
        List.find?_cons_of_neg _ (by simp [h]), ih]

lemma mem_enumRows (l : List Row) : ∀ (n : Nat) (p : Nat × Row),
    p ∈ enumRows n l → n ≤ p.1 ∧ p.2 ∈ l := by
  induction l with
  | nil =>
    intro n p h
    cases h
  | cons r rs ih =>
    intro n p h
    rcases List.mem_cons.mp h with rfl | h'
    · exact ⟨Nat.le_refl n, List.mem_cons_self r rs⟩
    · obtain ⟨h1, h2⟩ := ih (n + 1) p h'
      exact ⟨Nat.le_of_succ_le h1, List.mem_cons_of_mem r h2⟩

/-- Row enumeration carries strictly increasing indices. -/
lemma enumRows_pairwise (l : List Row) :
    ∀ n : Nat, (enumRows n l).Pairwise (fun a b => a.1 < b.1) := by
  induction l with
  | nil =>
    intro n
    exact List.Pairwise.nil
  | cons r rs ih =>
    intro n
    refine List.Pairwise.cons (fun p hp => ?_) (ih (n + 1))
    exact Nat.lt_of_succ_le (mem_enumRows rs (n + 1) p hp).1

/-- Inserting an element whose row reference is smaller than all existing
ones into a lexicographically sorted list keeps it lexicographically sorted. -/
lemma pairwise_orderedInsert (x : Int × Nat) (l : List (Int × Nat))
    (hl : l.Pairwise stepRefLT) (hx : ∀ y ∈ l, x.2 < y.2) :
    (List.orderedInsert stepLE x l).Pairwise stepRefLT := by
  induction l with
  | nil =>
    simp [stepRefLT]
  | cons b bs ih =>
    rw [List.orderedInsert]
    by_cases h : stepLE x b
    · rw [if_pos h]
      refine List.Pairwise.cons (fun z hz => ?_) hl
      rcases List.mem_cons.mp hz with rfl | hz'
      · rcases lt_or_eq_of_le h with hlt | heq
        · exact Or.inl hlt
        · exact Or.inr ⟨heq, hx z (List.mem_cons_self _ _)⟩
      · have hbz := List.rel_of_pairwise_cons hl hz'
        rcases lt_or_eq_of_le h with h1 | h1
        · rcases hbz with hlt | ⟨heq, _⟩
          · exact Or.inl (lt_trans h1 hlt)
          · exact Or.inl (heq ▸ h1)
        · rcases hbz with hlt | ⟨heq, _⟩
          · exact Or.inl (h1 ▸ hlt)
          · exact Or.inr ⟨h1.trans heq, hx z (List.mem_cons_of_mem _ hz')⟩
    · rw [if_neg h]
      refine List.Pairwise.cons (fun z hz => ?_)
        (ih (List.pairwise_cons.mp hl).2 (fun y hy => hx y (List.mem_cons_of_mem _ hy)))
      rcases (List.mem_orderedInsert stepLE).mp hz with rfl | hz'
      · exact Or.inl (not_le.mp h)
      · exact List.rel_of_pairwise_cons hl hz'

/-- Stably sorting by step a list with strictly increasing row references
yields a list sorted by step with ties in original row order. -/
lemma pairwise_insertionSort (l : List (Int × Nat))
    (hl : l.Pairwise (fun a b => a.2 < b.2)) :
    (List.insertionSort stepLE l).Pairwise stepRefLT := by
  induction l with
  | nil =>
    exact List.Pairwise.nil
  | cons a l ih =>
    rw [List.insertionSort]
    refine pairwise_orderedInsert a _ (ih (List.pairwise_cons.mp hl).2) (fun y hy => ?_)
    exact List.rel_of_pairwise_cons hl ((List.mem_insertionSort _).mp hy)

/-- The built index, looked up at `c`, is the stable sort by step of `c`'s
`(step, idx)` pairs in row order. -/
lemma get_build_timeline (df : List Row) (c : String) :
    get_customer_timeline (build_customer_timeline df) c =
      List.insertionSort stepLE
        (((enumRows 0 df).filter (fun p => p.2.nameOrig == c)).map
          (fun p => (p.2.step, p.1))) := by
  unfold build_customer_timeline
  dsimp only
  have hraw := get_timeline_foldl (enumRows 0 df) [] c
  rw [get_timeline_nil, List.nil_append] at hraw
  unfold get_customer_timeline
  rw [find?_map_keys]
  cases hf : ((enumRows 0 df).foldl
      (fun m p => appendEntry m p.2.nameOrig (p.2.step, p.1)) []).find?
      (fun kv => kv.1 == c) with
  | none =>
    have hempty : get_customer_timeline
        ((enumRows 0 df).foldl (fun m p => appendEntry m p.2.nameOrig (p.2.step, p.1)) []) c
        = [] := by
      unfold get_customer_timeline
      rw [hf]
    rw [hempty] at hraw
    rw [← hraw]
    rfl
  | some kv =>
    have hval : get_customer_timeline
        ((enumRows 0 df).foldl (fun m p => appendEntry m p.2.nameOrig (p.2.step, p.1)) []) c
        = kv.2 := by
      unfold get_customer_timeline
      rw [hf]
    rw [hval] at hraw
    rw [← hraw]
    rfl

/-- C7: the Customer Timeline Index maps each customer to exactly the
`(step, rowRef)` pairs of the rows where that customer is the origin (a
permutation of the enumerated, filtered table), each customer's list is
sorted ascending by step with ties kept in original row order, and a
customer that never appears as an origin gets the empty list. -/
theorem build_customer_timeline_correct (df : List Row) (c : String) :
    (get_customer_timeline (build_customer_timeline df) c).Perm
      (((enumRows 0 df).filter (fun p => p.2.nameOrig == c)).map
        (fun p => (p.2.step, p.1))) ∧
    (get_customer_timeline (build_customer_timeline df) c).Pairwise stepRefLT ∧
    ((∀ r ∈ df, r.nameOrig ≠ c) →
      get_customer_timeline (build_customer_timeline df) c = []) := by
  have hkey := get_build_timeline df c
  refine ⟨?_, ?_, fun h => ?_⟩
  · rw [hkey]
    exact List.perm_insertionSort _ _
  · rw [hkey]
    refine pairwise_insertionSort _ ?_
    rw [List.pairwise_map]
    exact ((enumRows_pairwise df 0).filter _)
  · rw [hkey]
    have hfil : (enumRows 0 df).filter (fun p => p.2.nameOrig == c) = [] := by
      rw [List.filter_eq_nil_iff]
      intro p hp
      simp [h p.2 (mem_enumRows df 0 p hp).2]
    rw [hfil]
    rfl

/-- C7 (witness): on the two-row table whose only origin is `C1`, the
timeline of an unknown customer is empty. -/
theorem build_customer_timeline_correct_witness :
    get_customer_timeline (build_customer_timeline dfTimelineW) "NOPE" = [] :=
  (build_customer_timeline_correct dfTimelineW "NOPE").2.2 (by decide)

end Banking
